import Mathlib

/-!
Shallow embedding of `ForwardRenderTechnique.cpp` (Nazara Engine, forward
rendering technique) and proofs about its sprite packers, light selection,
multi-pass lighting, shader-uniform cache, light-uniform submission and
initialization.

Vertex data is modelled at quad granularity: a sprite chain is a `List Q`
whose elements stand for the 4-vertex packets of one quad (`Q` is an
arbitrary type of quad payloads).  Machine sizes (`std::size_t`) are `Nat`;
the subtractions performed by the source only happen under invariants that
make `Nat` truncated subtraction agree with the C++ unsigned subtraction.
-/

/-! ### Capacity constants

`s_maxQuads = std::numeric_limits<UInt16>::max() / 6` and
`maxSpriteCount = min(s_maxQuads, m_spriteBuffer.GetVertexCount() / 4)`
(lines 36 and 308/801 of the source).  The vertex count of the sprite
buffer depends on the vertex declaration stride, which lives outside this
translation unit, so it is kept as a parameter. -/

def s_maxQuads : Nat := 65535 / 6

def maxSpriteCount (bufferVertexCount : Nat) : Nat :=
  min s_maxQuads (bufferVertexCount / 4)

/-! ### Basic sprite packer (`DrawBasicSprites`, lines 360-394)

The inner `do`-loop fills the mapped vertex buffer from the chain vector,
starting at chain offset `off`, having already copied `sc` quads of the
at most `cap = maxSpriteCount` quads of one batch.  It returns the quads
copied in this fill, the final `spriteChainOffset`, and the chains still
to be treated (the first one possibly partially consumed).

In the branch where the current chain is not finished (`off' ≠ c.length`)
the C++ loop condition `spriteCount < maxSpriteCount` is necessarily
false: `count < c.length - off` forces `count = cap - sc`, hence
`sc' = cap`.  The loop therefore always exits there, which is what the
translation returns. -/

def fillBasic {Q : Type} (cap : Nat) : Nat → Nat → List (List Q) → List Q × Nat × List (List Q)
  | _, off, [] => ([], off, [])
  | sc, off, c :: rest =>
    let count := min (cap - sc) (c.length - off)
    let copied := (c.drop off).take count
    let sc' := sc + count
    let off' := off + count
    if off' = c.length then
      -- chain fully treated: advance to the next chain, reset the offset
      if sc' < cap then
        match rest with
        | [] => (copied, 0, [])
        | _ :: _ =>
          let res := fillBasic cap sc' 0 rest
          (copied ++ res.1, res.2.1, res.2.2)
      else (copied, 0, rest)
    else
      -- buffer full mid-chain (`spriteCount` reached `maxSpriteCount`)
      (copied, off', c :: rest)

/-- The outer `do`-loop of `DrawBasicSprites`: one fill + one indexed draw
per iteration, repeated `while (spriteChain < spriteChainCount)`.  Each
draw is recorded as the list of quads written to the buffer for it (the
draw call covers `spriteCount * 6` indices, i.e. exactly those quads).
The `fuel` argument only bounds the recursion; `drawBasicSprites` passes
a provably sufficient amount. -/
def drawBasicGo {Q : Type} (cap : Nat) : Nat → Nat → List (List Q) → List (List Q)
  | 0, _, _ => []
  | fuel + 1, off, chains =>
    let res := fillBasic cap 0 off chains
    res.1 :: (if res.2.2.isEmpty then [] else drawBasicGo cap fuel res.2.1 res.2.2)

/-- `DrawBasicSprites` for one overlay entry: the loop runs only when
`spriteChainCount > 0` (line 356). -/
def drawBasicSprites {Q : Type} (cap : Nat) (chains : List (List Q)) : List (List Q) :=
  if chains.isEmpty then []
  else drawBasicGo cap (chains.flatten.length + 1) 0 chains

/-! ### Depth-sorted sprite packer (`DrawOrderedSprites`, lines 784-918) -/

/-- The fill loop of `DrawOrderedSprites` (lines 816-841): iterate `it2`
from the current chain to the end, copying
`count = min(availableSpriteSpace, spriteCount - spriteChainOffset)`
quads per chain.  Returns the copied quads, the final `spriteChainOffset`
and `some r` when the loop broke marking chain `it + r` as split
(`splitChainIt`), `none` when it ran to the end.

The split test is the source's literal `count != spriteData.spriteCount`,
comparing this fill's copied count with the chain's *total* quad count. -/
def fillOrdered {Q : Type} (avail off : Nat) : List (List Q) → List Q × Nat × Option Nat
  | [] => ([], off, none)
  | c :: rest =>
    let count := min avail (c.length - off)
    let copied := (c.drop off).take count
    if count ≠ c.length then
      (copied, off + count, some 0)
    else
      let res := fillOrdered (avail - count) 0 rest
      (copied ++ res.1, res.2.1, res.2.2.map (· + 1))

/-- Loop state of `DrawOrderedSprites` (locals of lines 800-806 plus the
mapped buffer contents and the draw calls issued so far).  `splitChainIt`
uses `chains.length` as the `end()` sentinel.  Each draw is recorded as
`(spriteIndex, spriteCount)` in quads; the source call is
`DrawIndexedPrimitives(TriangleList, spriteIndex * 6, spriteCount * 6)`. -/
structure OState (Q : Type) where
  it : Nat
  updateVertexBuffer : Bool
  alreadyDrawnCount : Nat
  spriteIndex : Nat
  spriteChainOffset : Nat
  splitChainIt : Nat
  buffer : List Q
  draws : List (Nat × Nat)
  deriving Repr

def initOState {Q : Type} (chains : List (List Q)) : OState Q :=
  { it := 0
    updateVertexBuffer := true
    alreadyDrawnCount := 0
    spriteIndex := 0
    spriteChainOffset := 0
    splitChainIt := chains.length
    buffer := []
    draws := [] }

/-- One iteration of the `for (auto it = ...; it != end;)` loop body
(lines 808-917): optional refill of the vertex buffer, then one draw,
advancing `it` only when the drawn chain was not the split one. -/
def stepOrdered {Q : Type} (cap : Nat) (chains : List (List Q)) (s : OState Q) : OState Q :=
  let s :=
    if s.updateVertexBuffer then
      let res := fillOrdered cap s.spriteChainOffset (chains.drop s.it)
      { s with
        buffer := res.1
        spriteChainOffset := res.2.1
        spriteIndex := 0
        updateVertexBuffer := false
        splitChainIt :=
          match res.2.2 with
          | some r => s.it + r
          | none => chains.length }
    else s
  let len := (chains.getD s.it []).length
  if s.it ≠ s.splitChainIt then
    { s with
      draws := s.draws ++ [(s.spriteIndex, len - s.alreadyDrawnCount)]
      spriteIndex := s.spriteIndex + (len - s.alreadyDrawnCount)
      alreadyDrawnCount := 0
      it := s.it + 1 }
  else
    { s with
      draws := s.draws ++ [(s.spriteIndex, s.spriteChainOffset)]
      spriteIndex := s.spriteIndex + s.spriteChainOffset
      alreadyDrawnCount := s.spriteChainOffset
      updateVertexBuffer := true }

/-- Run the `DrawOrderedSprites` loop for at most `fuel` iterations;
`some s` when the loop condition `it != depthSortedSprites.end()` became
false (submission finished in state `s`), `none` when the fuel ran out
first. -/
def runOrdered {Q : Type} (cap : Nat) (chains : List (List Q)) : Nat → OState Q → Option (OState Q)
  | fuel, s =>
    if s.it = chains.length then some s
    else
      match fuel with
      | 0 => none
      | f + 1 => runOrdered cap chains f (stepOrdered cap chains s)

/-! ### Light relevance selection (`ChooseLights`, lines 249-285)

The per-kind suitability predicates and score functions
(`IsDirectionalLightSuitable`, `ComputeDirectionalLightScore`, ...) are
inline members of the class header, outside this translation unit; the
claims treat them as opaque, so they are parameters here.  Scores are
modelled as `Int` (the source uses `float`; only the ordering matters). -/

inductive LightType
  | directional
  | point
  | spot
  deriving DecidableEq, Repr

/-- The integer the light type is sent as (`LightType` enumerator value,
declaration order directional, point, spot). -/
def LightType.code : LightType → Int
  | .directional => 0
  | .point => 1
  | .spot => 2

/-- `LightIndex` (light kind, score, index into the kind's light list). -/
structure LightIndex where
  type : LightType
  score : Int
  index : Nat
  deriving DecidableEq, Repr

/-- One `for` loop of `ChooseLights`: walk a light list with its index,
appending a `LightIndex` for each light the suitability predicate
accepts. -/
def collectLights {α : Type} (t : LightType) (suitable : α → Bool) (score : α → Int) :
    Nat → List α → List LightIndex
  | _, [] => []
  | i, l :: ls =>
    (if suitable l then [⟨t, score l, i⟩] else []) ++ collectLights t suitable score (i + 1) ls

/-- Comparator of the final `std::sort` (line 281): ordered by score.
The source's strict `<` comparator sorts non-decreasingly; `insertionSort`
with the reflexive closure models any such order. -/
def scoreLE (a b : LightIndex) : Prop := a.score ≤ b.score

instance : DecidableRel scoreLE := fun a b => inferInstanceAs (Decidable (a.score ≤ b.score))

instance : IsTotal LightIndex scoreLE := ⟨fun a b => Int.le_total a.score b.score⟩

instance : IsTrans LightIndex scoreLE := ⟨fun _ _ _ h h' => Int.le_trans h h'⟩

/-- `ChooseLights(object, includeDirectionalLights)`: collect the suitable
lights of each kind (directional only when requested), then sort by
score. -/
def chooseLights {α : Type} (includeDirectionalLights : Bool)
    (directionalLights pointLights spotLights : List α)
    (isDirSuitable isPointSuitable isSpotSuitable : α → Bool)
    (dirScore pointScore spotScore : α → Int) : List LightIndex :=
  let lights :=
    (if includeDirectionalLights then
      collectLights .directional isDirSuitable dirScore 0 directionalLights
    else [])
    ++ collectLights .point isPointSuitable pointScore 0 pointLights
    ++ collectLights .spot isSpotSuitable spotScore 0 spotLights
  lights.insertionSort scoreLE

/-- The property C4 asserts of every selected entry: the entry's index
refers to a light of its kind's list, that light satisfies the kind's
suitability predicate, the entry carries that light's score, and
directional entries only occur when directional lights were included. -/
def suitableEntry {α : Type} (includeDirectionalLights : Bool)
    (directionalLights pointLights spotLights : List α)
    (isDirSuitable isPointSuitable isSpotSuitable : α → Bool)
    (dirScore pointScore spotScore : α → Int) (li : LightIndex) : Prop :=
  match li.type with
  | .directional => includeDirectionalLights = true ∧
      ∃ l, directionalLights[li.index]? = some l ∧ isDirSuitable l = true ∧ li.score = dirScore l
  | .point =>
      ∃ l, pointLights[li.index]? = some l ∧ isPointSuitable l = true ∧ li.score = pointScore l
  | .spot =>
      ∃ l, spotLights[li.index]? = some l ∧ isSpotSuitable l = true ∧ li.score = spotScore l

/-! ### Multi-pass lighting state (`DrawOpaqueModels`, non-instanced path,
lines 723-762)

Only the renderer state manipulated by the pass loop is modelled: the
blend enable flag, the blend function pair and the depth comparison.
The uniform submission of each pass is modelled separately by
`sendLightUniforms` below. -/

inductive BlendFunc
  | destAlpha
  | destColor
  | srcAlpha
  | srcColor
  | invDestAlpha
  | invDestColor
  | invSrcAlpha
  | invSrcColor
  | one
  | zero
  deriving DecidableEq, Repr

inductive RendererComparison
  | always
  | equal
  | greater
  | greaterOrEqual
  | less
  | lessOrEqual
  | never
  | notEqual
  deriving DecidableEq, Repr

structure RenderStates where
  blendEnabled : Bool
  srcBlend : BlendFunc
  dstBlend : BlendFunc
  depthFunc : RendererComparison
  deriving DecidableEq, Repr

/-- The renderer state after `pass == 1` switches to additive blending
with equal depth comparison (lines 747-749). -/
def additiveState (st : RenderStates) : RenderStates :=
  { st with blendEnabled := true, srcBlend := .one, dstBlend := .one, depthFunc := .equal }

/-- One iteration of the pass loop: switch to additive state when
`pass == 1`, then draw in the current state (the state is appended to the
trace of per-pass draw states). -/
def passFold (acc : List RenderStates × RenderStates) (pass : Nat) :
    List RenderStates × RenderStates :=
  let st := if pass = 1 then additiveState acc.2 else acc.2
  (acc.1 ++ [st], st)

/-- The per-object pass loop over the selected lights (lines 734-761):
`lightCount` selected lights, `maxLightPerPass` slots per pass.  Returns
the renderer state in force at each pass's draw call, and the state left
behind after the loop (`Enable(Blend, false)` and
`SetDepthFunc(oldDepthFunc)`, lines 760-761). -/
def lightPassLoop (maxLightPerPass lightCount : Nat) (st : RenderStates) :
    List RenderStates × RenderStates :=
  let oldDepthFunc := st.depthFunc
  let passCount := if lightCount = 0 then 1 else (lightCount - 1) / maxLightPerPass + 1
  let res := (List.range passCount).foldl passFold ([], st)
  (res.1, { res.2 with blendEnabled := false, depthFunc := oldDepthFunc })

/-! ### Light uniform submission (`SendLightUniforms`, lines 1087-1175)

Uniform locations are `Int` (`-1` = not found, as returned by
`Shader::GetUniformLocation`).  Scalar light parameters (colors, factors,
positions, ...) are abstracted as `Int` payloads; the shadow map is
`Option Nat` (texture id, `nullptr` = `none`).  Every `shader->Send...`
and `Renderer::SetTexture/SetTextureSampler` call becomes one event. -/

structure LightLocations where
  type : Int
  color : Int
  factors : Int
  lightViewProjMatrix : Int
  parameters1 : Int
  parameters2 : Int
  parameters3 : Int
  shadowMapping : Int
  deriving DecidableEq, Repr

structure LightUniforms where
  ubo : Bool
  locations : LightLocations
  deriving DecidableEq, Repr

structure DirectionalLightEntry where
  color : Int
  ambientFactor : Int
  diffuseFactor : Int
  direction : Int
  shadowMap : Option Nat
  transformMatrix : Int
  deriving DecidableEq, Repr

structure PointLightEntry where
  color : Int
  ambientFactor : Int
  diffuseFactor : Int
  position : Int
  attenuation : Int
  invRadius : Int
  shadowMap : Option Nat
  deriving DecidableEq, Repr

structure SpotLightEntry where
  color : Int
  ambientFactor : Int
  diffuseFactor : Int
  position : Int
  attenuation : Int
  direction : Int
  invRadius : Int
  innerAngleCosine : Int
  outerAngleCosine : Int
  shadowMap : Option Nat
  transformMatrix : Int
  deriving DecidableEq, Repr

/-- The light lists of the render queue consumed by the technique. -/
structure LightQueues where
  directionalLights : List DirectionalLightEntry
  pointLights : List PointLightEntry
  spotLights : List SpotLightEntry
  deriving DecidableEq, Repr

inductive ShaderSend
  | integer (location v : Int)
  | colorSend (location v : Int)
  | vecSend (location : Int) (components : List Int)
  | boolSend (location : Int) (v : Bool)
  | matrixSend (location v : Int)
  | setTexture (unit textureId : Nat)
  | setSampler (unit : Nat)
  deriving DecidableEq, Repr

/-- `Material::GetTextureUnit(TextureMap_Shadow2D_1 + index)` (resp.
`TextureMap_ShadowCube_1`): an injective slot mapping whose concrete
values live outside this translation unit. -/
def textureUnit2D (index : Nat) : Nat := index

def textureUnitCube (index : Nat) : Nat := 100 + index

/-- Default entries standing for the unchecked `m_renderQueue.*Lights[i]`
accesses; `ChooseLights` only produces in-range indices. -/
def dirDefault : DirectionalLightEntry := ⟨0, 0, 0, 0, none, 0⟩

def pointDefault : PointLightEntry := ⟨0, 0, 0, 0, 0, 0, none⟩

def spotDefault : SpotLightEntry := ⟨0, 0, 0, 0, 0, 0, 0, 0, 0, none, 0⟩

/-- `SendLightUniforms(shader, uniforms, index, lightIndex, uniformOffset)`:
`mLights` is the member `m_lights` filled by the last `ChooseLights` call,
`queues` the render queue's light lists. -/
def sendLightUniforms (u : LightUniforms) (mLights : List LightIndex) (queues : LightQueues)
    (index lightIndex : Nat) (uniformOffset : Int) : List ShaderSend :=
  if h : lightIndex < mLights.length then
    let lightInfo := mLights.get ⟨lightIndex, h⟩
    [.integer (u.locations.type + uniformOffset) lightInfo.type.code] ++
    match lightInfo.type with
    | .directional =>
      let light := queues.directionalLights.getD lightInfo.index dirDefault
      [.colorSend (u.locations.color + uniformOffset) light.color,
       .vecSend (u.locations.factors + uniformOffset) [light.ambientFactor, light.diffuseFactor],
       .vecSend (u.locations.parameters1 + uniformOffset) [light.direction]]
      ++ (if u.locations.shadowMapping ≠ -1 then
            [.boolSend (u.locations.shadowMapping + uniformOffset) light.shadowMap.isSome]
          else [])
      ++ (match light.shadowMap with
          | some tex =>
            [.setTexture (textureUnit2D index) tex, .setSampler (textureUnit2D index)]
            ++ (if u.locations.lightViewProjMatrix ≠ -1 then
                  [.matrixSend (u.locations.lightViewProjMatrix + index) light.transformMatrix]
                else [])
          | none => [])
    | .point =>
      let light := queues.pointLights.getD lightInfo.index pointDefault
      [.colorSend (u.locations.color + uniformOffset) light.color,
       .vecSend (u.locations.factors + uniformOffset) [light.ambientFactor, light.diffuseFactor],
       .vecSend (u.locations.parameters1 + uniformOffset) [light.position, light.attenuation],
       .vecSend (u.locations.parameters2 + uniformOffset) [0, 0, 0, light.invRadius]]
      ++ (if u.locations.shadowMapping ≠ -1 then
            [.boolSend (u.locations.shadowMapping + uniformOffset) light.shadowMap.isSome]
          else [])
      ++ (match light.shadowMap with
          | some tex => [.setTexture (textureUnitCube index) tex, .setSampler (textureUnitCube index)]
          | none => [])
    | .spot =>
      let light := queues.spotLights.getD lightInfo.index spotDefault
      [.colorSend (u.locations.color + uniformOffset) light.color,
       .vecSend (u.locations.factors + uniformOffset) [light.ambientFactor, light.diffuseFactor],
       .vecSend (u.locations.parameters1 + uniformOffset) [light.position, light.attenuation],
       .vecSend (u.locations.parameters2 + uniformOffset) [light.direction, light.invRadius],
       .vecSend (u.locations.parameters3 + uniformOffset)
         [light.innerAngleCosine, light.outerAngleCosine]]
      ++ (if u.locations.shadowMapping ≠ -1 then
            [.boolSend (u.locations.shadowMapping + uniformOffset) light.shadowMap.isSome]
          else [])
      ++ (match light.shadowMap with
          | some tex =>
            [.setTexture (textureUnit2D index) tex, .setSampler (textureUnit2D index)]
            ++ (if u.locations.lightViewProjMatrix ≠ -1 then
                  [.matrixSend (u.locations.lightViewProjMatrix + index) light.transformMatrix]
                else [])
          | none => [])
  else
    if u.locations.type ≠ -1 then
      [.integer (u.locations.type + uniformOffset) (-1)] -- disable the light in the shader
    else []

/-- Light uniform submission of the instancing path of `DrawOpaqueModels`
(lines 662-715, uniform sends only): `lightCount` is taken from the
*directional* light list, but each slot is filled by
`SendLightUniforms(shader, uniforms, i, lightIndex++, lightOffset * i)`,
which reads `m_lights` (`mLights` here), the selection left behind by the
last `ChooseLights` call. -/
def instancedLightSends (maxLightPerPass : Nat) (hasLightUniforms : Bool) (u : LightUniforms)
    (lightOffset : Int) (mLights : List LightIndex) (queues : LightQueues) : List ShaderSend :=
  let lightCount := queues.directionalLights.length
  let passCount := if lightCount = 0 then 1 else (lightCount - 1) / maxLightPerPass + 1
  (List.range passCount).foldl
    (fun acc pass =>
      if hasLightUniforms then
        acc ++ ((List.range maxLightPerPass).map
          (fun i => sendLightUniforms u mLights queues i (pass * maxLightPerPass + i)
            (lightOffset * (i : Int)))).flatten
      else acc)
    []

/-! ### Shader uniform cache (`GetShaderUniforms`, lines 1028-1065, and
`OnShaderInvalidated`, lines 1073-1076)

A shader is its identity (the `const Shader*` key of `m_shaderUniforms`)
together with `GetUniformLocation`, modelled as a function from uniform
names to locations.  The signal connections (`shaderReleaseSlot`,
`shaderUniformInvalidatedSlot`) deliver `OnShaderInvalidated`
synchronously; the cache effect of that delivery is `onShaderInvalidated`
below. -/

structure Shader where
  id : Nat
  uniformLocation : String → Int

/-- The cached `ShaderUniforms` entry (connection slots omitted).
`lightOffset` and `lightUniforms` are left uninitialized by the source
when the light uniforms are absent; they are modelled as zeroed. -/
structure ShaderUniforms where
  eyePosition : Int
  sceneAmbient : Int
  textureOverlay : Int
  hasLightUniforms : Bool
  lightOffset : Int
  lightUniforms : LightUniforms
  deriving DecidableEq, Repr

/-- The resolution performed on a cache miss (lines 1033-1059). -/
def resolveUniforms (shader : Shader) : ShaderUniforms :=
  let eyePosition := shader.uniformLocation "EyePosition"
  let sceneAmbient := shader.uniformLocation "SceneAmbient"
  let textureOverlay := shader.uniformLocation "TextureOverlay"
  let type0Location := shader.uniformLocation "Lights[0].type"
  let type1Location := shader.uniformLocation "Lights[1].type"
  if type0Location > 0 ∧ type1Location > 0 then
    { eyePosition := eyePosition
      sceneAmbient := sceneAmbient
      textureOverlay := textureOverlay
      hasLightUniforms := true
      lightOffset := type1Location - type0Location
      lightUniforms :=
        { ubo := false
          locations :=
            { type := type0Location
              color := shader.uniformLocation "Lights[0].color"
              factors := shader.uniformLocation "Lights[0].factors"
              lightViewProjMatrix := shader.uniformLocation "LightViewProjMatrix[0]"
              parameters1 := shader.uniformLocation "Lights[0].parameters1"
              parameters2 := shader.uniformLocation "Lights[0].parameters2"
              parameters3 := shader.uniformLocation "Lights[0].parameters3"
              shadowMapping := shader.uniformLocation "Lights[0].shadowMapping" } } }
  else
    { eyePosition := eyePosition
      sceneAmbient := sceneAmbient
      textureOverlay := textureOverlay
      hasLightUniforms := false
      lightOffset := 0
      lightUniforms := { ubo := false, locations := ⟨0, 0, 0, 0, 0, 0, 0, 0⟩ } }

/-- The `m_shaderUniforms` map, keyed by shader identity. -/
def UniformCache : Type := List (Nat × ShaderUniforms)

/-- `GetShaderUniforms`: look the shader up, resolving and inserting on a
miss; returns the binding and the updated cache. -/
def getShaderUniforms (cache : UniformCache) (shader : Shader) :
    ShaderUniforms × UniformCache :=
  match cache.find? (fun e => e.1 == shader.id) with
  | some e => (e.2, cache)
  | none =>
    let uniforms := resolveUniforms shader
    (uniforms, (shader.id, uniforms) :: cache)

/-- `OnShaderInvalidated`: `m_shaderUniforms.erase(shader)`. -/
def onShaderInvalidated (cache : UniformCache) (shaderId : Nat) : UniformCache :=
  cache.filter (fun e => e.1 != shaderId)

/-! ### Initialization (`Initialize`, lines 171-230)

Every resource-creation step inside the `try` block runs with
`ErrorFlag_ThrowException` set and is modelled as an `Except` value; the
`catch (const std::exception&)` logs and returns `false`.  The quad index
pattern the mapped buffer is filled with is the pure `quadIndices`. -/

structure InitSteps where
  resetQuadIndexBuffer : Except String Unit
  mapQuadIndexBuffer : Except String Unit
  resetQuadVertexBuffer : Except String Unit
  fillQuadVertexBuffer : Except String Unit
  enableBillboardVertexComponents : Except String Unit
  enableBillboardInstanceComponents : Except String Unit
  setShadowSamplerModes : Except String Unit

/-- The contents written to the quad index buffer (lines 182-191):
two triangles per quad. -/
def quadIndices (n : Nat) : List Nat :=
  (List.range n).flatMap
    (fun i => [i * 4 + 0, i * 4 + 2, i * 4 + 1, i * 4 + 2, i * 4 + 3, i * 4 + 1])

/-- `Initialize()`: chain the fallible steps; any raised exception is
caught and reported as `false`, success as `true`. -/
def initTechnique (steps : InitSteps) : Bool :=
  let body : Except String Unit := do
    steps.resetQuadIndexBuffer
    steps.mapQuadIndexBuffer
    steps.resetQuadVertexBuffer
    steps.fillQuadVertexBuffer
    steps.enableBillboardVertexComponents
    steps.enableBillboardInstanceComponents
    steps.setShadowSamplerModes
  match body with
  | .ok _ => true
  | .error _ => false

/-! ### Specification-level helpers and concrete fixtures -/

/-- The vertex data still to be copied: the rest of the current chain
from offset `off`, followed by the later chains. -/
def flattenFrom {Q : Type} (off : Nat) : List (List Q) → List Q
  | [] => []
  | c :: rest => c.drop off ++ rest.flatten

/-- Ceiling division, the claimed number of draw calls for `n` quads with
capacity `cap` (`n ≥ 1`). -/
def ceilDiv (n cap : Nat) : Nat := (n - 1) / cap + 1

/-- A shader whose light-array element locations resolve to 0 and 5:
both are valid uniform locations (not `-1`). -/
def shaderLightsAtZero : Shader :=
  ⟨0, fun name => if name = "Lights[0].type" then 0
      else if name = "Lights[1].type" then 5 else -1⟩

/-- A shader whose light-array element locations resolve to 3 and 8. -/
def shaderLightsPositive : Shader :=
  ⟨1, fun name => if name = "Lights[0].type" then 3
      else if name = "Lights[1].type" then 8 else -1⟩

/-! ### Theorems -/

/-- Claim C8: `Initialize()` returns `true` exactly when every
resource-creation step succeeds; any step raising an exception is caught
and reported as `false` (the return type itself rules out exception
propagation to the caller). -/
theorem initTechnique_spec (steps : InitSteps) :
    initTechnique steps = true ↔
      (steps.resetQuadIndexBuffer = .ok () ∧ steps.mapQuadIndexBuffer = .ok () ∧
       steps.resetQuadVertexBuffer = .ok () ∧ steps.fillQuadVertexBuffer = .ok () ∧
       steps.enableBillboardVertexComponents = .ok () ∧
       steps.enableBillboardInstanceComponents = .ok () ∧
       steps.setShadowSamplerModes = .ok ()) := by
  obtain ⟨s1, s2, s3, s4, s5, s6, s7⟩ := steps
  cases s1 <;> cases s2 <;> cases s3 <;> cases s4 <;> cases s5 <;> cases s6 <;> cases s7 <;>
    simp [initTechnique, Bind.bind, Except.bind]

/-- Claim C10: when `lightIndex` is beyond the selected-light list, the
only uniform write of `SendLightUniforms` is the integer `-1` to the
slot's type location, performed exactly when that location is valid. -/
theorem sendLightUniforms_disable (u : LightUniforms) (mLights : List LightIndex)
    (queues : LightQueues) (index lightIndex : Nat) (uniformOffset : Int)
    (h : mLights.length ≤ lightIndex) :
    sendLightUniforms u mLights queues index lightIndex uniformOffset =
      if u.locations.type ≠ -1 then [.integer (u.locations.type + uniformOffset) (-1)]
      else [] := by
  rw [sendLightUniforms, dif_neg (by omega)]

/-- Witness for C10 at a concrete call: an empty selection and slot 0. -/
theorem sendLightUniforms_disable_witness :
    ([] : List LightIndex).length ≤ 0 ∧
      sendLightUniforms ⟨false, ⟨10, 20, 30, -1, 50, 60, 70, -1⟩⟩ [] ⟨[], [], []⟩ 0 0 5 =
        [.integer 15 (-1)] :=
  ⟨by decide, by
    rw [sendLightUniforms_disable ⟨false, ⟨10, 20, 30, -1, 50, 60, 70, -1⟩⟩ [] ⟨[], [], []⟩
      0 0 5 (by decide)]
    decide⟩

/-- Claim C5 (evaluation at the failing input): in the instancing path the
light slots are filled from `m_lights`, not from the directional-light
list.  With one queued directional light: a fresh technique
(`m_lights = []`) disables every slot and sends no directional data at
all, and a stale point-light selection sends that point light's type and
parameters. -/
theorem instancedLightSends_stale_selection :
    (instancedLightSends 3 true ⟨false, ⟨10, 20, 30, -1, 50, 60, 70, -1⟩⟩ 100
      [] ⟨[⟨5, 6, 7, 8, none, 9⟩], [⟨42, 1, 2, 7, 8, 9, none⟩], []⟩ =
      [.integer 10 (-1), .integer 110 (-1), .integer 210 (-1)])
  ∧ (instancedLightSends 3 true ⟨false, ⟨10, 20, 30, -1, 50, 60, 70, -1⟩⟩ 100
      [⟨.point, 0, 0⟩] ⟨[⟨5, 6, 7, 8, none, 9⟩], [⟨42, 1, 2, 7, 8, 9, none⟩], []⟩ =
      [.integer 10 LightType.point.code, .colorSend 20 42, .vecSend 30 [1, 2],
       .vecSend 50 [7, 8], .vecSend 60 [0, 0, 0, 9],
       .integer 110 (-1), .integer 210 (-1)]) := by
  exact ⟨rfl, rfl⟩

/-- Claim C1 (evaluation at the failing input): with capacity 2 and a
single depth-sorted chain of 3 quads, the second iteration marks the
resumed chain split again, so the second draw covers 3 quads while the
refilled buffer holds only the 1 leftover quad. -/
theorem drawOrderedSprites_split_miscount :
    ((stepOrdered 2 [[0, 1, 2]] (stepOrdered 2 [[0, 1, 2]] (initOState [[0, 1, 2]]))).draws
      = [(0, 2), (0, 3)])
  ∧ (stepOrdered 2 [[0, 1, 2]] (stepOrdered 2 [[0, 1, 2]] (initOState [[0, 1, 2]]))).buffer
      = [2] := by
  exact ⟨rfl, rfl⟩

/-- Any fill of the chain `[0, 1, 2]` with capacity 2 copies at most 2
quads, so the source's completed-chain test `count != spriteCount`
re-marks the chain as split: the loop state keeps `it = 0` and
`updateVertexBuffer = true` forever. -/
theorem stepOrdered_stuck (s : OState Nat) (h1 : s.it = 0)
    (h2 : s.updateVertexBuffer = true) :
    (stepOrdered 2 [[0, 1, 2]] s).it = 0 ∧
      (stepOrdered 2 [[0, 1, 2]] s).updateVertexBuffer = true := by
  have hc : ¬ min 2 (3 - s.spriteChainOffset) = 3 := by omega
  simp [stepOrdered, h1, h2, fillOrdered, hc]

theorem runOrdered_stuck :
    ∀ (fuel : Nat) (s : OState Nat), s.it = 0 → s.updateVertexBuffer = true →
      runOrdered 2 [[0, 1, 2]] fuel s = none := by
  intro fuel
  induction fuel with
  | zero =>
    intro s h1 _
    rw [runOrdered]
    simp [h1]
  | succ f ih =>
    intro s h1 h2
    rw [runOrdered]
    have h := stepOrdered_stuck s h1 h2
    simp only [h1, List.length_cons, List.length_nil]
    rw [if_neg (by omega)]
    exact ih _ h.1 h.2

/-- Claim C9: `DrawOrderedSprites` does not terminate once a chain
overflows the batch capacity: with capacity 2 and one chain of 3 quads,
no amount of loop iterations finishes the submission. -/
theorem drawOrderedSprites_no_termination :
    ∀ fuel : Nat, runOrdered 2 [[0, 1, 2]] fuel (initOState [[0, 1, 2]]) = none :=
  fun fuel => runOrdered_stuck fuel _ rfl rfl

/-- Exact shape of the pass loop's fold: the first pass draws in the
incoming state, every later pass in the additive state. -/
theorem passFold_range (st : RenderStates) :
    ∀ n, 1 ≤ n →
      (List.range n).foldl passFold ([], st) =
        (st :: List.replicate (n - 1) (additiveState st),
          if n = 1 then st else additiveState st) := by
  intro n
  induction n with
  | zero => omega
  | succ n ih =>
    intro _
    rcases Nat.eq_zero_or_pos n with h0 | hn
    · subst h0
      simp [List.range_succ, passFold]
    · rw [List.range_succ, List.foldl_append, ih hn]
      rcases Nat.eq_or_lt_of_le hn with h2 | h2
      · rw [← h2]
        simp [passFold]
      · have hne : ¬ n = 1 := by omega
        have hrep : List.replicate (n - 1) (additiveState st) ++ [additiveState st] =
            List.replicate n (additiveState st) := by
          rw [← List.replicate_succ']
          congr 1
          omega
        simp only [List.foldl_cons, List.foldl_nil, passFold, hne, if_false, hrep,
          List.cons_append]
        rw [if_neg (by omega), Nat.add_sub_cancel]

/-- Claim C3 (amended): the non-instanced pass loop issues
`ceil(k/m)` passes (1 when `k = 0`); the first pass draws in the incoming
state and every later pass draws with blending enabled, blend function
one+one and depth comparison equal; afterwards the depth function is
restored to its pre-object value, blending is disabled unconditionally,
and the blend function is left additive when more than one pass ran. -/
theorem lightPassLoop_spec (m k : Nat) (st : RenderStates) (_hm : 0 < m) :
    (lightPassLoop m k st).1.length = (if k = 0 then 1 else (k - 1) / m + 1)
  ∧ (lightPassLoop m k st).1.head? = some st
  ∧ (∀ p ∈ (lightPassLoop m k st).1.tail,
      p.blendEnabled = true ∧ p.srcBlend = .one ∧ p.dstBlend = .one ∧ p.depthFunc = .equal)
  ∧ (lightPassLoop m k st).2.depthFunc = st.depthFunc
  ∧ (lightPassLoop m k st).2.blendEnabled = false
  ∧ (2 ≤ (lightPassLoop m k st).1.length →
      (lightPassLoop m k st).2.srcBlend = .one ∧ (lightPassLoop m k st).2.dstBlend = .one)
  ∧ ((lightPassLoop m k st).1.length = 1 →
      (lightPassLoop m k st).2.srcBlend = st.srcBlend ∧
        (lightPassLoop m k st).2.dstBlend = st.dstBlend) := by
  set pc := (if k = 0 then 1 else (k - 1) / m + 1) with hpcdef
  have hpc : 1 ≤ pc := by
    rw [hpcdef]
    split
    · exact le_refl 1
    · exact Nat.le_add_left 1 _
  have hfold := passFold_range st pc hpc
  have hL : lightPassLoop m k st =
      (st :: List.replicate (pc - 1) (additiveState st),
        ⟨false, (if pc = 1 then st else additiveState st).srcBlend,
          (if pc = 1 then st else additiveState st).dstBlend, st.depthFunc⟩) := by
    simp only [lightPassLoop, ← hpcdef, hfold]
  have hfst : (lightPassLoop m k st).1 = st :: List.replicate (pc - 1) (additiveState st) := by
    rw [hL]
  have hsnd : (lightPassLoop m k st).2 =
      ⟨false, (if pc = 1 then st else additiveState st).srcBlend,
        (if pc = 1 then st else additiveState st).dstBlend, st.depthFunc⟩ := by
    rw [hL]
  have hlen : (lightPassLoop m k st).1.length = pc := by
    rw [hfst]
    simp only [List.length_cons, List.length_replicate]
    omega
  refine ⟨hlen, ?_, ?_, ?_, ?_, ?_, ?_⟩
  · rw [hfst]
    rfl
  · rw [hfst]
    simp only [List.tail_cons]
    intro p hp
    rw [List.eq_of_mem_replicate hp]
    exact ⟨rfl, rfl, rfl, rfl⟩
  · rw [hsnd]
  · rw [hsnd]
  · intro h2
    rw [hlen] at h2
    rw [hsnd, if_neg (by omega)]
    exact ⟨rfl, rfl⟩
  · intro h1
    rw [hlen] at h1
    rw [hsnd, if_pos h1]
    exact ⟨rfl, rfl⟩

/-- Counterexample to C3 as stated: the blend state is not restored after
the object's last pass (blending is forced off and the blend function is
left at one+one): with 2 lights and 1 light per pass the final state
differs from the initial one. -/
theorem lightPassLoop_not_restored :
    (lightPassLoop 1 2 ⟨true, .srcAlpha, .invSrcAlpha, .lessOrEqual⟩).2 ≠
      ⟨true, .srcAlpha, .invSrcAlpha, .lessOrEqual⟩ := by
  decide

/-- Witness for C3's theorem at `m = 1`, `k = 2`. -/
theorem lightPassLoop_spec_witness :
    (0 : Nat) < 1
  ∧ (lightPassLoop 1 2 ⟨true, .srcAlpha, .invSrcAlpha, .lessOrEqual⟩).1.length = 2
  ∧ (lightPassLoop 1 2 ⟨true, .srcAlpha, .invSrcAlpha, .lessOrEqual⟩).2.blendEnabled = false
  ∧ (lightPassLoop 1 2 ⟨true, .srcAlpha, .invSrcAlpha, .lessOrEqual⟩).2.srcBlend = .one := by
  have h := lightPassLoop_spec 1 2 ⟨true, .srcAlpha, .invSrcAlpha, .lessOrEqual⟩ (by decide)
  obtain ⟨h1, _, _, _, h5, h6, _⟩ := h
  have hlen : (lightPassLoop 1 2 ⟨true, .srcAlpha, .invSrcAlpha, .lessOrEqual⟩).1.length = 2 := by
    rw [h1]
    decide
  exact ⟨by decide, hlen, h5, (h6 (by rw [hlen])).1⟩

/-- Erasing a shader's cache entry really removes it: a lookup for that
shader in the erased cache fails. -/
theorem onShaderInvalidated_find? (cache : UniformCache) (i : Nat) :
    (onShaderInvalidated cache i).find? (fun e => e.1 == i) = none := by
  induction cache with
  | nil => rfl
  | cons e rest ih =>
    unfold onShaderInvalidated at ih ⊢
    by_cases h : e.1 = i
    · simp [List.filter_cons, h, ih]
    · simp only [List.filter_cons, bne_iff_ne, ne_eq, h, not_false_eq_true, if_true,
        List.find?_cons]
      have hb : (e.1 == i) = false := by simp [h]
      rw [hb]
      exact ih

/-- Claim C6: a second `GetShaderUniforms` call for an unchanged shader
returns the same cached binding and leaves the cache untouched; after the
shader's release/invalidation signal fires the entry is gone and a new
call re-resolves the uniform locations from the shader. -/
theorem getShaderUniforms_cache_spec (cache : UniformCache) (shader : Shader) :
    getShaderUniforms (getShaderUniforms cache shader).2 shader = getShaderUniforms cache shader
  ∧ (onShaderInvalidated (getShaderUniforms cache shader).2 shader.id).find?
      (fun e => e.1 == shader.id) = none
  ∧ (getShaderUniforms (onShaderInvalidated (getShaderUniforms cache shader).2 shader.id)
      shader).1 = resolveUniforms shader := by
  refine ⟨?_, onShaderInvalidated_find? _ shader.id, ?_⟩
  · rcases h : cache.find? (fun e => e.1 == shader.id) with _ | e
    · simp [getShaderUniforms, h, List.find?_cons]
    · simp [getShaderUniforms, h]
  · rw [getShaderUniforms, onShaderInvalidated_find? _ shader.id]

/-- Counterexample to C7 as stated: uniform location 0 is a valid
location (`GetUniformLocation` reports "not found" as `-1`, and the other
checks in the same source file test `!= -1`), yet `GetShaderUniforms`
leaves `hasLightUniforms` unset because it tests `> 0`. -/
theorem resolveUniforms_zero_location_missed :
    shaderLightsAtZero.uniformLocation "Lights[0].type" ≠ -1
  ∧ shaderLightsAtZero.uniformLocation "Lights[1].type" ≠ -1
  ∧ (resolveUniforms shaderLightsAtZero).hasLightUniforms = false := by
  refine ⟨by decide, by decide, by decide⟩

/-- Claim C7 (amended): `hasLightUniforms` is set iff both light-array
element locations are strictly positive, and in that case the recorded
stride is `location[1] - location[0]` with element 0's location as the
base `type` location. -/
theorem resolveUniforms_light_detection (shader : Shader) :
    ((resolveUniforms shader).hasLightUniforms = true ↔
      (shader.uniformLocation "Lights[0].type" > 0 ∧
        shader.uniformLocation "Lights[1].type" > 0))
  ∧ ((resolveUniforms shader).hasLightUniforms = true →
      (resolveUniforms shader).lightOffset =
        shader.uniformLocation "Lights[1].type" - shader.uniformLocation "Lights[0].type"
      ∧ (resolveUniforms shader).lightUniforms.locations.type =
        shader.uniformLocation "Lights[0].type") := by
  by_cases h : (shader.uniformLocation "Lights[0].type" > 0 ∧
      shader.uniformLocation "Lights[1].type" > 0)
  · constructor
    · simp [resolveUniforms, h]
    · intro _
      constructor <;> simp [resolveUniforms, h]
  · constructor
    · simp [resolveUniforms, h]
    · intro hcontra
      rw [resolveUniforms] at hcontra
      simp only [h, if_false] at hcontra
      exact absurd hcontra (by simp)

/-- Witness for C7's theorem at a shader with locations 3 and 8. -/
theorem resolveUniforms_light_detection_witness :
    (resolveUniforms shaderLightsPositive).hasLightUniforms = true
  ∧ (resolveUniforms shaderLightsPositive).lightOffset = 5 := by
  have h := resolveUniforms_light_detection shaderLightsPositive
  have h1 : (resolveUniforms shaderLightsPositive).hasLightUniforms = true :=
    h.1.mpr (by decide)
  refine ⟨h1, ?_⟩
  rw [(h.2 h1).1]
  decide

/-- Every entry collected from one light list comes from a suitable light
of that list, carrying its kind, score, and index. -/
theorem collectLights_mem {α : Type} (t : LightType) (suitable : α → Bool) (score : α → Int) :
    ∀ (start : Nat) (ls : List α) (li : LightIndex), li ∈ collectLights t suitable score start ls →
      li.type = t ∧ ∃ j l, ls[j]? = some l ∧ suitable l = true ∧ li.score = score l ∧
        li.index = start + j := by
  intro start ls
  induction ls generalizing start with
  | nil => intro li h; exact absurd h (List.not_mem_nil li)
  | cons l ls ih =>
    intro li h
    rw [collectLights, List.mem_append] at h
    rcases h with h | h
    · by_cases hs : suitable l = true
      · rw [if_pos hs, List.mem_singleton] at h
        subst h
        exact ⟨rfl, 0, l, by simp, hs, rfl, rfl⟩
      · rw [if_neg hs] at h
        exact absurd h (List.not_mem_nil li)
    · obtain ⟨ht, j, l', hj, hsu, hsc, hidx⟩ := ih (start + 1) li h
      exact ⟨ht, j + 1, l', by simpa using hj, hsu, hsc, by omega⟩

/-- Claim C4: `ChooseLights` returns only entries whose kind-specific
suitability predicate holds for the object (with the entry's score
computed by the kind's score function), the result is sorted
non-decreasingly by score, and excluding directional lights never yields
a directional entry. -/
theorem chooseLights_spec {α : Type} (includeDirectionalLights : Bool)
    (directionalLights pointLights spotLights : List α)
    (isDirSuitable isPointSuitable isSpotSuitable : α → Bool)
    (dirScore pointScore spotScore : α → Int) :
    List.Sorted scoreLE (chooseLights includeDirectionalLights directionalLights pointLights
      spotLights isDirSuitable isPointSuitable isSpotSuitable dirScore pointScore spotScore)
  ∧ (∀ li ∈ chooseLights includeDirectionalLights directionalLights pointLights
      spotLights isDirSuitable isPointSuitable isSpotSuitable dirScore pointScore spotScore,
      suitableEntry includeDirectionalLights directionalLights pointLights spotLights
        isDirSuitable isPointSuitable isSpotSuitable dirScore pointScore spotScore li)
  ∧ (includeDirectionalLights = false →
      ∀ li ∈ chooseLights includeDirectionalLights directionalLights pointLights
        spotLights isDirSuitable isPointSuitable isSpotSuitable dirScore pointScore spotScore,
        li.type ≠ .directional) := by
  have hmem : ∀ li ∈ chooseLights includeDirectionalLights directionalLights pointLights
      spotLights isDirSuitable isPointSuitable isSpotSuitable dirScore pointScore spotScore,
      suitableEntry includeDirectionalLights directionalLights pointLights spotLights
        isDirSuitable isPointSuitable isSpotSuitable dirScore pointScore spotScore li := by
    intro li h
    rw [chooseLights, List.mem_insertionSort, List.mem_append, List.mem_append] at h
    rcases h with (h | h) | h
    · rcases hinc : includeDirectionalLights with _ | _
      · rw [hinc, if_neg (by simp)] at h
        exact absurd h (List.not_mem_nil li)
      · rw [hinc, if_pos rfl] at h
        obtain ⟨ht, j, l, hj, hsu, hsc, hidx⟩ :=
          collectLights_mem .directional isDirSuitable dirScore 0 directionalLights li h
        rw [suitableEntry, ht]
        exact ⟨rfl, l, by rwa [hidx, Nat.zero_add], hsu, hsc⟩
    · obtain ⟨ht, j, l, hj, hsu, hsc, hidx⟩ :=
        collectLights_mem .point isPointSuitable pointScore 0 pointLights li h
      rw [suitableEntry, ht]
      exact ⟨l, by rwa [hidx, Nat.zero_add], hsu, hsc⟩
    · obtain ⟨ht, j, l, hj, hsu, hsc, hidx⟩ :=
        collectLights_mem .spot isSpotSuitable spotScore 0 spotLights li h
      rw [suitableEntry, ht]
      exact ⟨l, by rwa [hidx, Nat.zero_add], hsu, hsc⟩
  refine ⟨List.sorted_insertionSort scoreLE _, hmem, ?_⟩
  intro hinc li h
  have hsuit := hmem li h
  rw [suitableEntry] at hsuit
  intro ht
  rw [ht] at hsuit
  rw [hsuit.1] at hinc
  exact Bool.noConfusion hinc

/-- Witness for C4's theorem on a one-directional, one-point queue. -/
theorem chooseLights_spec_witness :
    ((⟨.point, 7, 0⟩ : LightIndex) ∈ chooseLights true [(5 : Int)] [7] []
      (fun _ => true) (fun _ => true) (fun _ => true) id id id)
  ∧ suitableEntry true [(5 : Int)] [7] [] (fun _ => true) (fun _ => true) (fun _ => true)
      id id id ⟨.point, 7, 0⟩
  ∧ List.Sorted scoreLE (chooseLights true [(5 : Int)] [7] []
      (fun _ => true) (fun _ => true) (fun _ => true) id id id) := by
  have h := chooseLights_spec true [(5 : Int)] [7] []
    (fun _ => true) (fun _ => true) (fun _ => true) id id id
  have hm : (⟨.point, 7, 0⟩ : LightIndex) ∈ chooseLights true [(5 : Int)] [7] []
      (fun _ => true) (fun _ => true) (fun _ => true) id id id := by decide
  exact ⟨hm, h.2.1 _ hm, h.1⟩

theorem flattenFrom_zero {Q : Type} (chains : List (List Q)) :
    flattenFrom 0 chains = chains.flatten := by
  cases chains with
  | nil => rfl
  | cons c rest => rw [flattenFrom, List.drop_zero, List.flatten_cons]

theorem fillBasic_cons {Q : Type} (cap sc off : Nat) (c : List Q) (rest : List (List Q)) :
    fillBasic cap sc off (c :: rest) =
      if off + min (cap - sc) (c.length - off) = c.length then
        if sc + min (cap - sc) (c.length - off) < cap then
          match rest with
          | [] => ((c.drop off).take (min (cap - sc) (c.length - off)), 0, [])
          | _ :: _ =>
            ((c.drop off).take (min (cap - sc) (c.length - off)) ++
                (fillBasic cap (sc + min (cap - sc) (c.length - off)) 0 rest).1,
              (fillBasic cap (sc + min (cap - sc) (c.length - off)) 0 rest).2.1,
              (fillBasic cap (sc + min (cap - sc) (c.length - off)) 0 rest).2.2)
        else ((c.drop off).take (min (cap - sc) (c.length - off)), 0, rest)
      else
        ((c.drop off).take (min (cap - sc) (c.length - off)),
          off + min (cap - sc) (c.length - off), c :: rest) := by
  simp only [fillBasic]

/-- Invariants of one buffer fill of `DrawBasicSprites`: the copied quads
are exactly the next quads of the pending data (conservation), the batch
never exceeds the capacity, the fill only stops short of the end with a
full batch, the resulting offset stays within the next chain, the pending
chains are among the input chains, and (for chains that all hold at least
one quad) pending chains always hold pending quads. -/
theorem fillBasic_spec {Q : Type} (cap : Nat) :
    ∀ (chains : List (List Q)) (sc off : Nat), sc ≤ cap →
      (∀ c ∈ chains.head?, off ≤ c.length) →
      flattenFrom off chains =
        (fillBasic cap sc off chains).1 ++
          flattenFrom (fillBasic cap sc off chains).2.1 (fillBasic cap sc off chains).2.2
      ∧ sc + (fillBasic cap sc off chains).1.length ≤ cap
      ∧ ((fillBasic cap sc off chains).2.2 ≠ [] →
          sc + (fillBasic cap sc off chains).1.length = cap)
      ∧ (∀ c ∈ (fillBasic cap sc off chains).2.2.head?,
          (fillBasic cap sc off chains).2.1 ≤ c.length)
      ∧ (∀ c ∈ (fillBasic cap sc off chains).2.2, c ∈ chains)
      ∧ ((fillBasic cap sc off chains).2.2 ≠ [] → (∀ c ∈ chains, c ≠ []) →
          flattenFrom (fillBasic cap sc off chains).2.1 (fillBasic cap sc off chains).2.2 ≠ []) := by
  intro chains
  induction chains with
  | nil =>
    intro sc off hsc _
    have heq : fillBasic (Q := Q) cap sc off [] = ([], off, []) := rfl
    rw [heq]
    exact ⟨rfl, by simpa using hsc, by simp, by simp, by simp, by simp⟩
  | cons c rest ih =>
    intro sc off hsc hoff
    have hoffc : off ≤ c.length := hoff c rfl
    have hcount1 : min (cap - sc) (c.length - off) ≤ cap - sc := Nat.min_le_left _ _
    have hcount2 : min (cap - sc) (c.length - off) ≤ c.length - off := Nat.min_le_right _ _
    have hcopylen : ((c.drop off).take (min (cap - sc) (c.length - off))).length =
        min (cap - sc) (c.length - off) := by
      rw [List.length_take, List.length_drop]
      omega
    by_cases hfin : off + min (cap - sc) (c.length - off) = c.length
    · have hall : (c.drop off).take (min (cap - sc) (c.length - off)) = c.drop off := by
        have hc : min (cap - sc) (c.length - off) = (c.drop off).length := by
          rw [List.length_drop]
          omega
        rw [hc, List.take_length]
      by_cases hlt : sc + min (cap - sc) (c.length - off) < cap
      · cases rest with
        | nil =>
          have heq : fillBasic cap sc off [c] =
              ((c.drop off).take (min (cap - sc) (c.length - off)), 0, []) := by
            rw [fillBasic_cons, if_pos hfin, if_pos hlt]
          rw [heq]
          dsimp only
          refine ⟨?_, ?_, by simp, by simp, by simp, by simp⟩
          · rw [hall, flattenFrom, flattenFrom]
            simp
          · simp only [hcopylen]
            omega
        | cons r0 rs =>
          have heq : fillBasic cap sc off (c :: r0 :: rs) =
              ((c.drop off).take (min (cap - sc) (c.length - off)) ++
                  (fillBasic cap (sc + min (cap - sc) (c.length - off)) 0 (r0 :: rs)).1,
                (fillBasic cap (sc + min (cap - sc) (c.length - off)) 0 (r0 :: rs)).2.1,
                (fillBasic cap (sc + min (cap - sc) (c.length - off)) 0 (r0 :: rs)).2.2) := by
            rw [fillBasic_cons, if_pos hfin, if_pos hlt]
          obtain ⟨ih1, ih2, ih3, ih4, ih5, ih6⟩ :=
            ih (sc + min (cap - sc) (c.length - off)) 0 (Nat.le_of_lt hlt)
              (fun c' _ => Nat.zero_le _)
          rw [heq]
          dsimp only
          refine ⟨?_, ?_, ?_, ih4, ?_, ?_⟩
          · show c.drop off ++ (r0 :: rs).flatten = _
            rw [← flattenFrom_zero (r0 :: rs), ih1, hall, List.append_assoc]
          · simp only [List.length_append, hcopylen]
            omega
          · intro hne
            have := ih3 hne
            simp only [List.length_append, hcopylen]
            omega
          · intro c' hc'
            exact List.mem_cons_of_mem c (ih5 c' hc')
          · intro hne hall'
            exact ih6 hne (fun c' hc' => hall' c' (List.mem_cons_of_mem c hc'))
      · have heq : fillBasic cap sc off (c :: rest) =
            ((c.drop off).take (min (cap - sc) (c.length - off)), 0, rest) := by
          rw [fillBasic_cons, if_pos hfin, if_neg hlt]
        rw [heq]
        dsimp only
        refine ⟨?_, ?_, ?_, fun c' _ => Nat.zero_le _, fun c' hc' => List.mem_cons_of_mem c hc', ?_⟩
        · show c.drop off ++ rest.flatten = _
          rw [hall, flattenFrom_zero]
        · simp only [hcopylen]
          omega
        · intro _
          simp only [hcopylen]
          omega
        · intro hne hall'
          cases rest with
          | nil => exact absurd rfl hne
          | cons r0 rs =>
            have hr0 : r0 ≠ [] := hall' r0 (List.mem_cons_of_mem c (List.mem_cons_self r0 rs))
            show r0.drop 0 ++ rs.flatten ≠ []
            rw [List.drop_zero]
            simp [hr0]
    · have heq : fillBasic cap sc off (c :: rest) =
          ((c.drop off).take (min (cap - sc) (c.length - off)),
            off + min (cap - sc) (c.length - off), c :: rest) := by
        rw [fillBasic_cons, if_neg hfin]
      have hcnt : min (cap - sc) (c.length - off) = cap - sc := by
        rcases min_choice (cap - sc) (c.length - off) with h | h
        · exact h
        · omega
      rw [heq]
      dsimp only
      refine ⟨?_, ?_, ?_, ?_, fun c' hc' => hc', ?_⟩
      · show c.drop off ++ rest.flatten = _
        calc c.drop off ++ rest.flatten
            = ((c.drop off).take (min (cap - sc) (c.length - off)) ++
                (c.drop off).drop (min (cap - sc) (c.length - off))) ++ rest.flatten := by
              rw [List.take_append_drop]
          _ = (c.drop off).take (min (cap - sc) (c.length - off)) ++
                (c.drop (off + min (cap - sc) (c.length - off)) ++ rest.flatten) := by
              rw [List.drop_drop, List.append_assoc, Nat.add_comm off]
          _ = _ := rfl
      · simp only [hcopylen]
        omega
      · intro _
        simp only [hcopylen]
        omega
      · intro c' hc'
        have : c' = c := by
          simp only [List.head?_cons, Option.mem_def, Option.some.injEq] at hc'
          exact hc'.symm
        subst this
        omega
      · intro _ _
        show c.drop (off + min (cap - sc) (c.length - off)) ++ rest.flatten ≠ []
        have hlt2 : off + min (cap - sc) (c.length - off) < c.length := by omega
        have : c.drop (off + min (cap - sc) (c.length - off)) ≠ [] := by
          rw [ne_eq, List.drop_eq_nil_iff]
          omega
        simp [this]

/-- The outer loop of `DrawBasicSprites` reproduces the pending quads in
order, and (for chains of at least one quad each) issues
`ceil(pending / cap)` draws. -/
theorem drawBasicGo_spec {Q : Type} (cap : Nat) (hcap : 0 < cap) :
    ∀ (fuel off : Nat) (chains : List (List Q)), chains ≠ [] →
      (∀ c ∈ chains.head?, off ≤ c.length) →
      (flattenFrom off chains).length < fuel →
      (drawBasicGo cap fuel off chains).flatten = flattenFrom off chains
      ∧ ((∀ c ∈ chains, c ≠ []) → flattenFrom off chains ≠ [] →
          (drawBasicGo cap fuel off chains).length =
            ceilDiv (flattenFrom off chains).length cap) := by
  intro fuel
  induction fuel with
  | zero =>
    intro off chains _ _ hlen
    exact absurd hlen (Nat.not_lt_zero _)
  | succ f ih =>
    intro off chains hne hoff hlen
    obtain ⟨f1, f2, f3, f4, f5, f6⟩ := fillBasic_spec cap chains 0 off (Nat.zero_le _) hoff
    have heq : drawBasicGo cap (f + 1) off chains =
        (fillBasic cap 0 off chains).1 ::
          (if (fillBasic cap 0 off chains).2.2.isEmpty then []
           else drawBasicGo cap f (fillBasic cap 0 off chains).2.1
             (fillBasic cap 0 off chains).2.2) := by
      simp only [drawBasicGo]
    by_cases hr : (fillBasic cap 0 off chains).2.2 = []
    · rw [heq, hr]
      simp only [List.isEmpty_nil, if_true]
      have hcons : flattenFrom off chains = (fillBasic cap 0 off chains).1 := by
        rw [f1, hr]
        simp [flattenFrom]
      constructor
      · rw [hcons]
        simp
      · intro _ hfne
        have hlow : 1 ≤ (flattenFrom off chains).length := by
          rcases h : flattenFrom off chains with _ | _
          · exact absurd h hfne
          · simp
        have hup : (flattenFrom off chains).length ≤ cap := by
          rw [hcons]
          simpa using f2
      
        rw [ceilDiv, Nat.div_eq_of_lt (by omega)]
        simp
    · have hcond : ¬ (fillBasic cap 0 off chains).2.2.isEmpty = true := by
        simp [List.isEmpty_iff, hr]
      rw [heq, if_neg hcond]
      have hfull : 0 + (fillBasic cap 0 off chains).1.length = cap := f3 hr
      have hsum : (flattenFrom off chains).length =
          cap + (flattenFrom (fillBasic cap 0 off chains).2.1
            (fillBasic cap 0 off chains).2.2).length := by
        rw [f1, List.length_append]
        omega
      have hih := ih (fillBasic cap 0 off chains).2.1 (fillBasic cap 0 off chains).2.2 hr f4
        (by omega)
      constructor
      · rw [List.flatten_cons, hih.1, f1]
      · intro hne' hfne'
        have hall : ∀ c ∈ (fillBasic cap 0 off chains).2.2, c ≠ [] :=
          fun c hc => hne' c (f5 c hc)
        have hflat : flattenFrom (fillBasic cap 0 off chains).2.1
            (fillBasic cap 0 off chains).2.2 ≠ [] := f6 hr hne'
        have hlow : 1 ≤ (flattenFrom (fillBasic cap 0 off chains).2.1
            (fillBasic cap 0 off chains).2.2).length := by
          rcases h : flattenFrom (fillBasic cap 0 off chains).2.1
            (fillBasic cap 0 off chains).2.2 with _ | _
          · exact absurd h hflat
          · simp
        rw [List.length_cons, hih.2 hall hflat, ceilDiv, ceilDiv, hsum]
        have harith : cap + (flattenFrom (fillBasic cap 0 off chains).2.1
            (fillBasic cap 0 off chains).2.2).length - 1 =
            ((flattenFrom (fillBasic cap 0 off chains).2.1
              (fillBasic cap 0 off chains).2.2).length - 1) + cap := by
          omega
        rw [harith, Nat.add_div_right _ hcap]

/-- Claim C2 (amended): `DrawBasicSprites` reproduces the queued vertex
data exactly, in original chain order, across its buffer fills; the
per-draw quad counts sum to the total quad count `N`; an empty chain list
produces zero draws; and when every chain holds at least one quad the
number of indexed draw calls is exactly `ceil(N / cap)`.  (With zero-quad
chains present the draw count can exceed `ceil(N / cap)`, see the
counterexample.) -/
theorem drawBasicSprites_spec {Q : Type} (cap : Nat) (chains : List (List Q)) (hcap : 0 < cap) :
    (drawBasicSprites cap chains).flatten = chains.flatten
  ∧ ((drawBasicSprites cap chains).map List.length).sum = chains.flatten.length
  ∧ (chains = [] → drawBasicSprites cap chains = [])
  ∧ ((∀ c ∈ chains, c ≠ []) → chains ≠ [] →
      (drawBasicSprites cap chains).length = ceilDiv chains.flatten.length cap) := by
  by_cases hc : chains = []
  · subst hc
    refine ⟨rfl, rfl, fun _ => rfl, fun _ h => absurd rfl h⟩
  · have heq : drawBasicSprites cap chains =
        drawBasicGo cap (chains.flatten.length + 1) 0 chains := by
      rw [drawBasicSprites, if_neg (by simp [List.isEmpty_iff, hc])]
    have hflat0 : flattenFrom 0 chains = chains.flatten := flattenFrom_zero chains
    obtain ⟨g1, g2⟩ := drawBasicGo_spec cap hcap (chains.flatten.length + 1) 0 chains hc
      (fun c _ => Nat.zero_le _) (by rw [hflat0]; omega)
    have hjoin : (drawBasicSprites cap chains).flatten = chains.flatten := by
      rw [heq, g1, hflat0]
    refine ⟨hjoin, ?_, fun h => absurd h hc, ?_⟩
    · calc ((drawBasicSprites cap chains).map List.length).sum
          = (drawBasicSprites cap chains).flatten.length := (List.length_flatten _).symm
        _ = chains.flatten.length := by rw [hjoin]
    · intro hne _
      have hfne : flattenFrom 0 chains ≠ [] := by
        rw [hflat0]
        rcases chains with _ | ⟨c0, cs⟩
        · exact absurd rfl hc
        · have hc0 : c0 ≠ [] := hne c0 (List.mem_cons_self c0 cs)
          rw [List.flatten_cons]
          simp [hc0]
      rw [heq, g2 hne hfne, hflat0]

/-- Counterexample to C2 as stated: a zero-quad chain sitting right after
a batch boundary yields an extra draw call of zero quads
(`maxSpriteCount 8 = 2`, chains of 2 and 0 quads: 2 draws, not
`ceil(2/2) = 1`). -/
theorem drawBasicSprites_zero_chain_extra_draw :
    (drawBasicSprites (maxSpriteCount 8) [[(0 : Nat), 1], []]).length ≠
      ceilDiv ([[(0 : Nat), 1], []].flatten).length (maxSpriteCount 8) := by
  decide

/-- Witness for C2's theorem: one chain of 3 quads, capacity 2. -/
theorem drawBasicSprites_spec_witness :
    (0 : Nat) < 2
  ∧ (drawBasicSprites 2 [[(0 : Nat), 1, 2]]).flatten = [0, 1, 2]
  ∧ (drawBasicSprites 2 [[(0 : Nat), 1, 2]]).length = 2 := by
  have h := drawBasicSprites_spec 2 [[(0 : Nat), 1, 2]] (by decide)
  refine ⟨by decide, ?_, ?_⟩
  · rw [h.1]
    decide
  · rw [h.2.2.2 (by decide) (by decide)]
    decide

/-- The boundary `DrawOrderedSprites` does handle: a single chain of
exactly the batch capacity gives one draw of the full chain with no
carry-over state (no pending split, zero offset, nothing left marked
drawn). -/
theorem runOrdered_exact_capacity {Q : Type} (c : List Q) :
    runOrdered c.length [c] 1 (initOState [c]) =
      some { it := 1, updateVertexBuffer := false, alreadyDrawnCount := 0,
             spriteIndex := c.length, spriteChainOffset := 0, splitChainIt := 1,
             buffer := c, draws := [(0, c.length)] } := by
  rw [runOrdered]
  simp only [initOState, List.length_cons, List.length_nil]
  rw [if_neg (by omega)]
  rw [runOrdered]
  simp [stepOrdered, fillOrdered, initOState]
